import Mathlib

/-!
Verification development for the World-Happiness-Report dashboard
(`app.py`).  The script loads a CSV into a pandas data frame, normalizes
the column headers, and dispatches on a sidebar selection to one of six
chart-rendering branches.  We embed the header normalization, the frame
operations used by the branches (`nlargest`, `nsmallest`, column
selection, `dropna`, `select_dtypes`) and the branch dispatch itself,
and prove the stated properties about them.
-/

namespace WHR

/-! ### Python-style string operations used on the column headers

`df.columns.str.strip().str.lower().str.replace(' ', '_')` strips
surrounding whitespace, lowercases, and replaces each space by an
underscore.  Strings are modelled through their character lists.
-/

/-- `str.strip()`: drop leading and trailing whitespace characters. -/
def stripList (l : List Char) : List Char :=
  ((l.dropWhile Char.isWhitespace).reverse.dropWhile Char.isWhitespace).reverse

/-- `str.strip()` on a string. -/
def pyStrip (s : String) : String :=
  ⟨stripList s.data⟩

/-- `str.lower()` on a string (ASCII case mapping, as in `Char.toLower`). -/
def pyLower (s : String) : String :=
  ⟨s.data.map Char.toLower⟩

/-- `str.replace(' ', '_')` on one character. -/
def spaceToUnderscore (c : Char) : Char :=
  if c = ' ' then '_' else c

/-- `str.replace(' ', '_')` on a string: the pattern is the single
character `' '`, so the replacement is a character map. -/
def pyUnderscore (s : String) : String :=
  ⟨s.data.map spaceToUnderscore⟩

/-- One header as transformed by
`df.columns.str.strip().str.lower().str.replace(' ', '_')` (line 19 of
`app.py`). -/
def basicNormalize (s : String) : String :=
  pyUnderscore (pyLower (pyStrip s))

/-- The static `rename_map` of `load_data` (lines 22-31 of `app.py`),
in source order. -/
def rename_map : List (String × String) :=
  [("country_name", "country"),
   ("ladder_score", "happiness_score"),
   ("logged_gdp_per_capita", "gdp_per_capita"),
   ("social_support", "social_support"),
   ("healthy_life_expectancy", "life_expectancy"),
   ("freedom_to_make_life_choices", "freedom"),
   ("perceptions_of_corruption", "corruption"),
   ("regional_indicator", "region")]

/-- Renaming a single header by one `(old, new)` entry:
`df.rename(columns={old: new})` maps every column label equal to `old`
to `new`. -/
def substOne (p : String × String) (c : String) : String :=
  if c = p.1 then p.2 else c

/-- One iteration of the loop
`for old, new in rename_map.items(): if old in df.columns:
df.rename(columns={old: new}, inplace=True)` (lines 33-35 of `app.py`),
acting on the column-label list. -/
def renameStep (cols : List String) (p : String × String) : List String :=
  if p.1 ∈ cols then cols.map (fun c => substOne p c) else cols

/-- The whole rename loop of `load_data`. -/
def applyRenames (cols : List String) : List String :=
  rename_map.foldl renameStep cols

/-- The full column-header transformation performed by `load_data`
(lines 19-35 of `app.py`). -/
def load_data_columns (cols : List String) : List String :=
  applyRenames (cols.map basicNormalize)

/-- Renaming by the static map read as a one-shot lookup: a header that
is a key of `rename_map` becomes its canonical value, all other headers
are unchanged.  This follows the spec wording for the loader; the
source applies the map entry by entry. -/
def canonicalRename (c : String) : String :=
  if c = "country_name" then "country"
  else if c = "ladder_score" then "happiness_score"
  else if c = "logged_gdp_per_capita" then "gdp_per_capita"
  else if c = "social_support" then "social_support"
  else if c = "healthy_life_expectancy" then "life_expectancy"
  else if c = "freedom_to_make_life_choices" then "freedom"
  else if c = "perceptions_of_corruption" then "corruption"
  else if c = "regional_indicator" then "region"
  else c

/-- The loader's header transformation as the spec words it: strip,
lowercase, underscore, then canonical rename, independently per
header. -/
def normalizeSpec (cols : List String) : List String :=
  cols.map (fun c => canonicalRename (basicNormalize c))

/-- The per-character action of `strip`-free parts of the normalization:
lowercase, then replace a space by an underscore. -/
def normChar (c : Char) : Char :=
  spaceToUnderscore (Char.toLower c)

/-! ### The data frame model

A pandas frame is a list of column labels together with rows of cells.
A cell is a number, a string, or a missing value (`NaN`). -/

inductive Cell where
  | na : Cell
  | num : ℚ → Cell
  | str : String → Cell
deriving DecidableEq, Repr

structure Frame where
  cols : List String
  rows : List (List Cell)
deriving DecidableEq, Repr

/-- `def safe_col(col_name): return col_name in df.columns`
(lines 69-71 of `app.py`). -/
def safe_col (f : Frame) (c : String) : Bool :=
  decide (c ∈ f.cols)

/-- Position of a column label (first match, as pandas label lookup). -/
def colIdx (f : Frame) (c : String) : Option Nat :=
  f.cols.findIdx? (fun x => decide (x = c))

/-- The cell of row `r` in column `c` of frame `f`. -/
def cellAt (f : Frame) (r : List Cell) (c : String) : Cell :=
  match colIdx f c with
  | some i => r.getD i Cell.na
  | none => Cell.na

/-- The numeric sort key a row contributes to `nlargest`/`nsmallest`
on column `c`: its cell there when numeric, nothing for `NaN` (pandas
`nlargest`/`nsmallest` drop rows whose key is missing). -/
def scoreKey (f : Frame) (c : String) (r : List Cell) : Option ℚ :=
  match cellAt f r c with
  | Cell.num q => some q
  | _ => none

/-- The rows of `f` paired with their numeric key in column `c`; rows
without a numeric key are dropped. -/
def keyedRows (f : Frame) (c : String) : List (ℚ × List Cell) :=
  f.rows.filterMap (fun r => (scoreKey f c r).map (fun q => (q, r)))

/-- Descending comparison on keys (ties keep original order, pandas
`keep='first'`). -/
def descLe (a b : ℚ × List Cell) : Bool :=
  decide (b.1 ≤ a.1)

/-- Ascending comparison on keys. -/
def ascLe (a b : ℚ × List Cell) : Bool :=
  decide (a.1 ≤ b.1)

/-- `df.nlargest(n, c)`: the first `n` rows in descending stable order
of column `c`, rows without a numeric key dropped. -/
def Frame.nlargest (f : Frame) (n : Nat) (c : String) : Frame :=
  ⟨f.cols, (((keyedRows f c).mergeSort descLe).take n).map Prod.snd⟩

/-- `df.nsmallest(n, c)`: the first `n` rows in ascending stable order
of column `c`, rows without a numeric key dropped. -/
def Frame.nsmallest (f : Frame) (n : Nat) (c : String) : Frame :=
  ⟨f.cols, (((keyedRows f c).mergeSort ascLe).take n).map Prod.snd⟩

/-- A cell is missing. -/
def Cell.isNA : Cell → Bool
  | Cell.na => true
  | _ => false

/-- A column holds no string cell in any row (the model of a numeric
dtype for `select_dtypes(include=['number'])`). -/
def numericCol (f : Frame) (i : Nat) : Bool :=
  f.rows.all (fun r =>
    match r.getD i Cell.na with
    | Cell.str _ => false
    | _ => true)

/-- Indices of the numeric columns. -/
def numericIdxs (f : Frame) : List Nat :=
  (List.range f.cols.length).filter (fun i => numericCol f i)

/-- `df.select_dtypes(include=['number'])` (line 169 of `app.py`). -/
def select_dtypes_number (f : Frame) : Frame :=
  ⟨(numericIdxs f).map (fun i => f.cols.getD i ""),
   f.rows.map (fun r => (numericIdxs f).map (fun i => r.getD i Cell.na))⟩

/-- `df[cs]`: column projection. -/
def selectCols (f : Frame) (cs : List String) : Frame :=
  ⟨cs, f.rows.map (fun r => cs.map (fun c => cellAt f r c))⟩

/-- `df.dropna()`: drop every row holding a missing value. -/
def Frame.dropna (f : Frame) : Frame :=
  ⟨f.cols, f.rows.filter (fun r => !(r.any Cell.isNA))⟩

/-! ### The loader and the six views -/

/-- `load_data` (lines 14-37 of `app.py`) on an already parsed frame:
it rewrites the column labels and touches nothing else. -/
def load_data (f : Frame) : Frame :=
  ⟨load_data_columns f.cols, f.rows⟩

/-- The six sidebar options (lines 54-64 of `app.py`), in order. -/
def pages : List String :=
  ["Top & Bottom 10 Countries",
   "GDP vs Happiness",
   "Social Support vs Happiness",
   "Happiness Distribution",
   "Correlation Heatmap",
   "Pairwise Relationships"]

/-- The chart a view hands to the plotting library, with the data frame
(or frames) it is drawn from. -/
inductive Chart where
  | twinBars : Frame → Frame → Chart
  | scatter : String → String → Option String → Frame → Chart
  | hist : String → Frame → Chart
  | heatmapCorr : Frame → Chart
  | pairplot : Frame → Chart
deriving DecidableEq, Repr

/-- What one page render produces: an error message, one chart, or
nothing (no branch matched). -/
inductive RenderResult where
  | error : String → RenderResult
  | chart : Chart → RenderResult
  | blank : RenderResult
deriving DecidableEq, Repr

def RenderResult.isError : RenderResult → Bool
  | RenderResult.error _ => true
  | _ => false

def RenderResult.isChart : RenderResult → Bool
  | RenderResult.chart _ => true
  | _ => false

/-- `possible_cols` of the Pairwise Relationships branch (line 179). -/
def possible_cols : List String :=
  ["happiness_score", "gdp_per_capita", "social_support", "life_expectancy", "freedom"]

/-- `valid_cols` of the Pairwise Relationships branch (line 180). -/
def valid_cols (f : Frame) : List String :=
  possible_cols.filter (fun c => safe_col f c)

/-- The `if page == ... / elif ...` dispatch (lines 76-189 of `app.py`).
The frame is threaded through so that any update of `df` by a branch
would show in the second component; no branch updates it. -/
def runView (df : Frame) (page : String) : RenderResult × Frame :=
  if page = "Top & Bottom 10 Countries" then
    if !(safe_col df "happiness_score") || !(safe_col df "country") then
      (RenderResult.error "⚠️ Required columns not found in dataset.", df)
    else
      let top_10 := df.nlargest 10 "happiness_score"
      let bottom_10 := df.nsmallest 10 "happiness_score"
      (RenderResult.chart (Chart.twinBars top_10 bottom_10), df)
  else if page = "GDP vs Happiness" then
    if !(safe_col df "gdp_per_capita") || !(safe_col df "happiness_score") then
      (RenderResult.error "⚠️ GDP or Happiness Score column missing.", df)
    else
      (RenderResult.chart (Chart.scatter "gdp_per_capita" "happiness_score"
        (if safe_col df "region" then some "region" else none) df), df)
  else if page = "Social Support vs Happiness" then
    if !(safe_col df "social_support") || !(safe_col df "happiness_score") then
      (RenderResult.error "⚠️ Social Support or Happiness Score column missing.", df)
    else
      (RenderResult.chart (Chart.scatter "social_support" "happiness_score"
        (if safe_col df "region" then some "region" else none) df), df)
  else if page = "Happiness Distribution" then
    if !(safe_col df "happiness_score") then
      (RenderResult.error "⚠️ Happiness Score column missing.", df)
    else
      (RenderResult.chart (Chart.hist "happiness_score" df), df)
  else if page = "Correlation Heatmap" then
    (RenderResult.chart (Chart.heatmapCorr (select_dtypes_number df)), df)
  else if page = "Pairwise Relationships" then
    if (valid_cols df).length < 2 then
      (RenderResult.error "⚠️ Not enough numeric columns for pairwise visualization.", df)
    else
      let df_clean := (selectCols df (valid_cols df)).dropna
      (RenderResult.chart (Chart.pairplot df_clean), df)
  else
    (RenderResult.blank, df)

/-- The result a page selection renders. -/
def render (df : Frame) (page : String) : RenderResult :=
  (runView df page).1

/-- The columns a view checks for before rendering; the Correlation
Heatmap branch checks nothing, and the Pairwise Relationships branch
requires no single fixed column. -/
def requiredCols (page : String) : List String :=
  if page = "Top & Bottom 10 Countries" then ["happiness_score", "country"]
  else if page = "GDP vs Happiness" then ["gdp_per_capita", "happiness_score"]
  else if page = "Social Support vs Happiness" then ["social_support", "happiness_score"]
  else if page = "Happiness Distribution" then ["happiness_score"]
  else []

/-- The user-visible messages of the column checks. -/
def errorMessages : List String :=
  ["⚠️ Required columns not found in dataset.",
   "⚠️ GDP or Happiness Score column missing.",
   "⚠️ Social Support or Happiness Score column missing.",
   "⚠️ Happiness Score column missing.",
   "⚠️ Not enough numeric columns for pairwise visualization."]

/-- How `read_csv` can fail; the script installs no handler for it. -/
inductive LoadFailure where
  | missingFile : LoadFailure
  | parseFailure : String → LoadFailure
deriving DecidableEq, Repr

/-- The observable outcome of one run of the script. -/
inductive Outcome where
  | crashed : LoadFailure → Outcome
  | rendered : RenderResult → Outcome
deriving DecidableEq, Repr

/-- The whole script: `df = load_data()` at module level (line 39) with
no `try`/`except`, then the dispatch.  A `read_csv` failure therefore
escapes as-is; a parsed frame is normalized and rendered. -/
def runApp (csv : Except LoadFailure Frame) (page : String) : Outcome :=
  match csv with
  | Except.error e => Outcome.crashed e
  | Except.ok raw => Outcome.rendered (render (load_data raw) page)

/-- The six dispatch conditions (lines 76, 106, 129, 152, 167, 178), in
order. -/
def branchTests : List (String → Bool) :=
  [fun p => decide (p = "Top & Bottom 10 Countries"),
   fun p => decide (p = "GDP vs Happiness"),
   fun p => decide (p = "Social Support vs Happiness"),
   fun p => decide (p = "Happiness Distribution"),
   fun p => decide (p = "Correlation Heatmap"),
   fun p => decide (p = "Pairwise Relationships")]

/-! ### Concrete frames used to instantiate the hypotheses below -/

/-- Twenty rows with pairwise distinct happiness scores. -/
def sampleFrame : Frame :=
  ⟨["happiness_score", "country"],
   (List.range 20).map (fun i => [Cell.num i, Cell.str "c"])⟩

/-- One row over three of the candidate numeric columns, no region. -/
def wideFrame : Frame :=
  ⟨["happiness_score", "gdp_per_capita", "social_support"],
   [[Cell.num 1, Cell.num 2, Cell.num 3]]⟩

/-- The empty frame. -/
def emptyFrame : Frame :=
  ⟨[], []⟩

/-! ### The rename loop is an independent per-header lookup -/

theorem renameStep_eq_map (cols : List String) (p : String × String) :
    renameStep cols p = cols.map (fun c => substOne p c) := by
  unfold renameStep
  split
  · rfl
  · next h =>
      refine Eq.symm ?_
      have hid : ∀ c ∈ cols, substOne p c = c := by
        intro c hc
        unfold substOne
        split
        · next he => exact absurd (he ▸ hc) h
        · rfl
      calc cols.map (fun c => substOne p c) = cols.map id :=
            List.map_congr_left (fun c hc => hid c hc)
        _ = cols := List.map_id cols

theorem foldl_renameStep_eq_map (ps : List (String × String)) (cols : List String) :
    ps.foldl renameStep cols
      = cols.map (fun c => ps.foldl (fun a p => substOne p a) c) := by
  induction ps generalizing cols with
  | nil => simp
  | cons p ps ih =>
      simp only [List.foldl_cons]
      rw [renameStep_eq_map, ih, List.map_map]
      rfl

set_option maxHeartbeats 4000000 in
theorem seqSubst_eq_canonicalRename (c : String) :
    rename_map.foldl (fun a p => substOne p a) c = canonicalRename c := by
  by_cases h1 : c = "country_name"
  · subst h1; decide
  by_cases h2 : c = "ladder_score"
  · subst h2; decide
  by_cases h3 : c = "logged_gdp_per_capita"
  · subst h3; decide
  by_cases h4 : c = "social_support"
  · subst h4; decide
  by_cases h5 : c = "healthy_life_expectancy"
  · subst h5; decide
  by_cases h6 : c = "freedom_to_make_life_choices"
  · subst h6; decide
  by_cases h7 : c = "perceptions_of_corruption"
  · subst h7; decide
  by_cases h8 : c = "regional_indicator"
  · subst h8; decide
  have e1 : substOne ("country_name", "country") c = c := by
    simp [substOne, h1]
  have e2 : substOne ("ladder_score", "happiness_score") c = c := by
    simp [substOne, h2]
  have e3 : substOne ("logged_gdp_per_capita", "gdp_per_capita") c = c := by
    simp [substOne, h3]
  have e4 : substOne ("social_support", "social_support") c = c := by
    simp [substOne, h4]
  have e5 : substOne ("healthy_life_expectancy", "life_expectancy") c = c := by
    simp [substOne, h5]
  have e6 : substOne ("freedom_to_make_life_choices", "freedom") c = c := by
    simp [substOne, h6]
  have e7 : substOne ("perceptions_of_corruption", "corruption") c = c := by
    simp [substOne, h7]
  have e8 : substOne ("regional_indicator", "region") c = c := by
    simp [substOne, h8]
  have hfold : rename_map.foldl (fun a p => substOne p a) c = c := by
    simp only [rename_map, List.foldl_cons, List.foldl_nil]
    rw [e1, e2, e3, e4, e5, e6, e7, e8]
  rw [hfold]
  unfold canonicalRename
  rw [if_neg h1, if_neg h2, if_neg h3, if_neg h4, if_neg h5, if_neg h6, if_neg h7,
    if_neg h8]

/-- The source's sequential rename loop equals the one-shot per-header
normalization described by the spec. -/
theorem load_data_columns_eq_map (cols : List String) :
    load_data_columns cols = normalizeSpec cols := by
  unfold load_data_columns applyRenames normalizeSpec
  rw [foldl_renameStep_eq_map, List.map_map]
  apply List.map_congr_left
  intro c hc
  simp only [Function.comp_apply]
  exact seqSubst_eq_canonicalRename (basicNormalize c)

/-! ### Idempotence of the header normalization -/

theorem head?_dropWhile {α : Type} (p : α → Bool) (l : List α) :
    ∀ c, (l.dropWhile p).head? = some c → p c = false := by
  induction l with
  | nil => intro c h; simp [List.dropWhile] at h
  | cons a t ih =>
      intro c h
      rw [List.dropWhile_cons] at h
      split at h
      · exact ih c h
      · next hp =>
          simp only [List.head?_cons, Option.some.injEq] at h
          subst h
          simpa using hp

theorem dropWhile_eq_self_of_head? {α : Type} (p : α → Bool) (l : List α)
    (h : ∀ c, l.head? = some c → p c = false) : l.dropWhile p = l := by
  cases l with
  | nil => rfl
  | cons a t =>
      rw [List.dropWhile_cons, h a rfl]
      simp

theorem getLast?_dropWhile {α : Type} (p : α → Bool) (l : List α) :
    ∀ c, (l.dropWhile p).getLast? = some c → l.getLast? = some c := by
  induction l with
  | nil => intro c h; simp [List.dropWhile] at h
  | cons a t ih =>
      intro c h
      rw [List.dropWhile_cons] at h
      split at h
      · have h2 := ih c h
        cases t with
        | nil => simp at h2
        | cons b r => rw [List.getLast?_cons_cons]; exact h2
      · exact h

theorem head?_stripList (l : List Char) :
    ∀ c, (stripList l).head? = some c → c.isWhitespace = false := by
  intro c h
  unfold stripList at h
  rw [List.head?_reverse] at h
  have h2 := getLast?_dropWhile Char.isWhitespace _ c h
  rw [List.getLast?_reverse] at h2
  exact head?_dropWhile Char.isWhitespace _ c h2

theorem getLast?_stripList (l : List Char) :
    ∀ c, (stripList l).getLast? = some c → c.isWhitespace = false := by
  intro c h
  unfold stripList at h
  rw [List.getLast?_reverse] at h
  exact head?_dropWhile Char.isWhitespace _ c h

theorem stripList_eq_self (l : List Char)
    (h1 : ∀ c, l.head? = some c → c.isWhitespace = false)
    (h2 : ∀ c, l.getLast? = some c → c.isWhitespace = false) :
    stripList l = l := by
  unfold stripList
  rw [dropWhile_eq_self_of_head? Char.isWhitespace l h1]
  rw [dropWhile_eq_self_of_head? Char.isWhitespace l.reverse
    (fun c hc => h2 c (by rwa [List.head?_reverse] at hc))]
  exact List.reverse_reverse l

theorem stripList_map_fix (l : List Char) (f : Char → Char)
    (hf : ∀ c, c.isWhitespace = false → (f c).isWhitespace = false) :
    stripList ((stripList l).map f) = (stripList l).map f := by
  apply stripList_eq_self
  · intro c hc
    rw [List.head?_map] at hc
    cases hh : (stripList l).head? with
    | none => rw [hh] at hc; simp at hc
    | some d =>
        rw [hh] at hc
        simp at hc
        subst hc
        exact hf d (head?_stripList l d hh)
  · intro c hc
    rw [List.getLast?_map] at hc
    cases hh : (stripList l).getLast? with
    | none => rw [hh] at hc; simp at hc
    | some d =>
        rw [hh] at hc
        simp at hc
        subst hc
        exact hf d (getLast?_stripList l d hh)

/-! #### Character-level facts about lowercasing and the space map -/

theorem toNat_ofNat_small (n : Nat) (h : n < 55296) : (Char.ofNat n).toNat = n := by
  unfold Char.ofNat
  rw [dif_pos (Or.inl h)]
  rfl

theorem toLower_toLower (c : Char) : c.toLower.toLower = c.toLower := by
  unfold Char.toLower
  by_cases h : c.toNat ≥ 65 ∧ c.toNat ≤ 90
  · rw [if_pos h]
    have hv : (Char.ofNat (c.toNat + 32)).toNat = c.toNat + 32 :=
      toNat_ofNat_small (c.toNat + 32) (by omega)
    rw [hv, if_neg (by omega)]
  · rw [if_neg h, if_neg h]

theorem not_ws_of_toNat_big (r : Char) (h : 96 ≤ r.toNat) : r.isWhitespace = false := by
  have h1 : r ≠ ' ' := fun he => absurd (he ▸ h) (by decide)
  have h2 : r ≠ '\t' := fun he => absurd (he ▸ h) (by decide)
  have h3 : r ≠ '\x0d' := fun he => absurd (he ▸ h) (by decide)
  have h4 : r ≠ '\n' := fun he => absurd (he ▸ h) (by decide)
  simp [Char.isWhitespace, h1, h2, h3, h4]

theorem toLower_not_ws (c : Char) (h : c.isWhitespace = false) :
    c.toLower.isWhitespace = false := by
  unfold Char.toLower
  by_cases hc : c.toNat ≥ 65 ∧ c.toNat ≤ 90
  · rw [if_pos hc]
    apply not_ws_of_toNat_big
    rw [toNat_ofNat_small (c.toNat + 32) (by omega)]
    omega
  · rwa [if_neg hc]

theorem normChar_not_ws (c : Char) (h : c.isWhitespace = false) :
    (normChar c).isWhitespace = false := by
  unfold normChar spaceToUnderscore
  split
  · decide
  · exact toLower_not_ws c h

theorem normChar_normChar (c : Char) : normChar (normChar c) = normChar c := by
  by_cases hd : c.toLower = ' '
  · have h1 : normChar c = '_' := by simp [normChar, spaceToUnderscore, hd]
    rw [h1]
    decide
  · have h1 : normChar c = c.toLower := by simp [normChar, spaceToUnderscore, hd]
    rw [h1]
    unfold normChar
    rw [toLower_toLower]
    simp [spaceToUnderscore, hd]

theorem basicNormalize_data (s : String) :
    (basicNormalize s).data = (stripList s.data).map normChar := by
  unfold basicNormalize pyUnderscore pyLower pyStrip
  simp only [List.map_map]
  rfl

theorem basicNormalize_idem (s : String) :
    basicNormalize (basicNormalize s) = basicNormalize s := by
  apply String.ext
  rw [basicNormalize_data, basicNormalize_data]
  rw [stripList_map_fix _ _ normChar_not_ws]
  rw [List.map_map]
  apply List.map_congr_left
  intro c hc
  simp only [Function.comp_apply]
  exact normChar_normChar c

set_option maxHeartbeats 4000000 in
theorem canonicalRename_basicNormalize_idem (c : String) :
    canonicalRename (basicNormalize (canonicalRename (basicNormalize c)))
      = canonicalRename (basicNormalize c) := by
  by_cases h1 : basicNormalize c = "country_name"
  · rw [h1]; decide
  by_cases h2 : basicNormalize c = "ladder_score"
  · rw [h2]; decide
  by_cases h3 : basicNormalize c = "logged_gdp_per_capita"
  · rw [h3]; decide
  by_cases h4 : basicNormalize c = "social_support"
  · rw [h4]; decide
  by_cases h5 : basicNormalize c = "healthy_life_expectancy"
  · rw [h5]; decide
  by_cases h6 : basicNormalize c = "freedom_to_make_life_choices"
  · rw [h6]; decide
  by_cases h7 : basicNormalize c = "perceptions_of_corruption"
  · rw [h7]; decide
  by_cases h8 : basicNormalize c = "regional_indicator"
  · rw [h8]; decide
  have hy : canonicalRename (basicNormalize c) = basicNormalize c := by
    unfold canonicalRename
    rw [if_neg h1, if_neg h2, if_neg h3, if_neg h4, if_neg h5, if_neg h6, if_neg h7,
      if_neg h8]
  rw [hy, basicNormalize_idem, hy]

/-! ### Facts about `nlargest` and `nsmallest` -/

theorem length_filterMap_isSome {α β : Type} (g : α → Option β) (l : List α)
    (h : ∀ a ∈ l, (g a).isSome) : (l.filterMap g).length = l.length := by
  induction l with
  | nil => rfl
  | cons a t ih =>
      cases hg : g a with
      | none =>
          exfalso
          have := h a (by simp)
          rw [hg] at this
          simp at this
      | some b =>
          rw [List.filterMap_cons_some hg, List.length_cons, List.length_cons]
          rw [ih (fun x hx => h x (by simp [hx]))]

theorem keyedRows_length (f : Frame) (c : String)
    (h : ∀ r ∈ f.rows, (scoreKey f c r).isSome) :
    (keyedRows f c).length = f.rows.length := by
  unfold keyedRows
  apply length_filterMap_isSome
  intro r hr
  have hs := h r hr
  cases hsk : scoreKey f c r with
  | none => rw [hsk] at hs; simp at hs
  | some q => rfl

theorem mem_keyedRows (f : Frame) (c : String) (p : ℚ × List Cell)
    (hp : p ∈ keyedRows f c) : p.2 ∈ f.rows ∧ scoreKey f c p.2 = some p.1 := by
  unfold keyedRows at hp
  rw [List.mem_filterMap] at hp
  obtain ⟨a, ha, hfa⟩ := hp
  cases hsk : scoreKey f c a with
  | none => rw [hsk] at hfa; simp at hfa
  | some q0 =>
      rw [hsk] at hfa
      simp only [Option.map_some'] at hfa
      cases hfa
      exact ⟨ha, hsk⟩

theorem descLe_trans :
    ∀ a b c : ℚ × List Cell, descLe a b = true → descLe b c = true → descLe a c = true := by
  intro a b c h1 h2
  simp only [descLe, decide_eq_true_eq] at h1 h2 ⊢
  exact le_trans h2 h1

theorem descLe_total : ∀ a b : ℚ × List Cell, (descLe a b || descLe b a) = true := by
  intro a b
  simp only [descLe, Bool.or_eq_true, decide_eq_true_eq]
  exact le_total b.1 a.1

theorem ascLe_trans :
    ∀ a b c : ℚ × List Cell, ascLe a b = true → ascLe b c = true → ascLe a c = true := by
  intro a b c h1 h2
  simp only [ascLe, decide_eq_true_eq] at h1 h2 ⊢
  exact le_trans h1 h2

theorem ascLe_total : ∀ a b : ℚ × List Cell, (ascLe a b || ascLe b a) = true := by
  intro a b
  simp only [ascLe, Bool.or_eq_true, decide_eq_true_eq]
  exact le_total a.1 b.1

theorem countP_take_bound {α : Type} (P : α → Bool) (s : List α) (n : Nat) (r : α)
    (hr : r ∈ s.take n) (hPr : P r = false)
    (hdrop : ∀ b ∈ s.drop n, P b = false) :
    List.countP P s ≤ n - 1 := by
  have hsum : List.countP P s = List.countP P (s.take n) + List.countP P (s.drop n) := by
    conv_lhs => rw [← List.take_append_drop n s]
    exact List.countP_append P _ _
  have h0 : List.countP P (s.drop n) = 0 :=
    List.countP_eq_zero.mpr (fun a ha => by rw [hdrop a ha]; simp)
  have hlt : List.countP P (s.take n) < (s.take n).length := by
    apply lt_of_le_of_ne (List.countP_le_length P)
    intro he
    have := List.countP_eq_length.mp he r hr
    rw [hPr] at this
    exact Bool.false_ne_true this
  have hle : (s.take n).length ≤ n := by
    rw [List.length_take]
    exact min_le_left _ _
  omega

theorem countP_eq_key_le_one {α : Type} (q : ℚ) (l : List (ℚ × α))
    (h : (l.map Prod.fst).Nodup) :
    List.countP (fun x => decide (x.1 = q)) l ≤ 1 := by
  induction l with
  | nil => simp
  | cons a t ih =>
      rw [List.map_cons, List.nodup_cons] at h
      obtain ⟨hna, hnd⟩ := h
      rw [List.countP_cons]
      by_cases hq : a.1 = q
      · have h0 : List.countP (fun x => decide (x.1 = q)) t = 0 := by
          apply List.countP_eq_zero.mpr
          intro x hx
          simp only [decide_eq_true_eq]
          intro hxq
          exact hna (List.mem_map.mpr ⟨x, hx, hxq.trans hq.symm⟩)
        rw [h0]
        simp [hq]
      · have := ih hnd
        simp only [decide_eq_true_eq]
        rw [if_neg hq]
        omega

theorem length_eq_countP_three {α : Type} (q : ℚ) (l : List (ℚ × α)) :
    l.length = List.countP (fun x => decide (q < x.1)) l
      + List.countP (fun x => decide (x.1 < q)) l
      + List.countP (fun x => decide (x.1 = q)) l := by
  induction l with
  | nil => simp
  | cons a t ih =>
      simp only [List.length_cons, List.countP_cons]
      rcases lt_trichotomy a.1 q with h | h | h
      · have e1 : (decide (q < a.1)) = false := decide_eq_false_iff_not.mpr (lt_asymm h)
        have e2 : (decide (a.1 < q)) = true := decide_eq_true h
        have e3 : (decide (a.1 = q)) = false := decide_eq_false_iff_not.mpr (ne_of_lt h)
        rw [e1, e2, e3]
        simp only [Bool.false_eq_true, eq_self_iff_true, if_true, if_false]
        omega
      · have e1 : (decide (q < a.1)) = false := decide_eq_false_iff_not.mpr (by rw [h]; exact lt_irrefl q)
        have e2 : (decide (a.1 < q)) = false := decide_eq_false_iff_not.mpr (by rw [h]; exact lt_irrefl q)
        have e3 : (decide (a.1 = q)) = true := decide_eq_true h
        rw [e1, e2, e3]
        simp only [Bool.false_eq_true, eq_self_iff_true, if_true, if_false]
        omega
      · have e1 : (decide (q < a.1)) = true := decide_eq_true h
        have e2 : (decide (a.1 < q)) = false := decide_eq_false_iff_not.mpr (lt_asymm h)
        have e3 : (decide (a.1 = q)) = false := decide_eq_false_iff_not.mpr (ne_of_gt h)
        rw [e1, e2, e3]
        simp only [Bool.false_eq_true, eq_self_iff_true, if_true, if_false]
        omega

theorem nlargest_rows_length (f : Frame) (n : Nat) (c : String)
    (h : ∀ r ∈ f.rows, (scoreKey f c r).isSome) :
    (f.nlargest n c).rows.length = min n f.rows.length := by
  unfold Frame.nlargest
  simp only [List.length_map, List.length_take, List.length_mergeSort]
  rw [keyedRows_length f c h]

theorem nsmallest_rows_length (f : Frame) (n : Nat) (c : String)
    (h : ∀ r ∈ f.rows, (scoreKey f c r).isSome) :
    (f.nsmallest n c).rows.length = min n f.rows.length := by
  unfold Frame.nsmallest
  simp only [List.length_map, List.length_take, List.length_mergeSort]
  rw [keyedRows_length f c h]

theorem nlargest_nsmallest_disjoint (f : Frame) (c : String)
    (hnodup : ((keyedRows f c).map Prod.fst).Nodup)
    (h20 : 20 ≤ (keyedRows f c).length) :
    List.Disjoint (f.nlargest 10 c).rows (f.nsmallest 10 c).rows := by
  intro r hrtop hrbot
  obtain ⟨p, hpTake, hpSnd⟩ := List.mem_map.mp hrtop
  obtain ⟨p', hpTake', hpSnd'⟩ := List.mem_map.mp hrbot
  have hpermD : ((keyedRows f c).mergeSort descLe).Perm (keyedRows f c) :=
    List.mergeSort_perm _ _
  have hpermA : ((keyedRows f c).mergeSort ascLe).Perm (keyedRows f c) :=
    List.mergeSort_perm _ _
  have hpMem : p ∈ keyedRows f c :=
    hpermD.mem_iff.mp (List.take_subset _ _ hpTake)
  have hpMem' : p' ∈ keyedRows f c :=
    hpermA.mem_iff.mp (List.take_subset _ _ hpTake')
  have hq : p'.1 = p.1 := by
    have h1 : scoreKey f c r = some p.1 := by
      rw [← hpSnd]
      exact (mem_keyedRows f c p hpMem).2
    have h2 : scoreKey f c r = some p'.1 := by
      rw [← hpSnd']
      exact (mem_keyedRows f c p' hpMem').2
    exact Option.some.inj (h2.symm.trans h1)
  have hsortD := List.sorted_mergeSort descLe_trans descLe_total (keyedRows f c)
  have hsortA := List.sorted_mergeSort ascLe_trans ascLe_total (keyedRows f c)
  have hgt : List.countP (fun x => decide (p.1 < x.1)) (keyedRows f c) ≤ 9 := by
    have hb := countP_take_bound (fun x => decide (p.1 < x.1))
      ((keyedRows f c).mergeSort descLe) 10 p hpTake
      (decide_eq_false_iff_not.mpr (lt_irrefl p.1))
      (by
        intro b hb
        rw [← List.take_append_drop 10 ((keyedRows f c).mergeSort descLe),
          List.pairwise_append] at hsortD
        have hcross := hsortD.2.2 p hpTake b hb
        simp only [descLe, decide_eq_true_eq] at hcross
        exact decide_eq_false_iff_not.mpr (not_lt.mpr hcross))
    calc List.countP (fun x => decide (p.1 < x.1)) (keyedRows f c)
        = List.countP (fun x => decide (p.1 < x.1)) ((keyedRows f c).mergeSort descLe) :=
          (hpermD.countP_eq _).symm
      _ ≤ 10 - 1 := hb
      _ = 9 := rfl
  have hlt : List.countP (fun x => decide (x.1 < p.1)) (keyedRows f c) ≤ 9 := by
    have hb := countP_take_bound (fun x => decide (x.1 < p.1))
      ((keyedRows f c).mergeSort ascLe) 10 p' hpTake'
      (decide_eq_false_iff_not.mpr (by rw [hq]; exact lt_irrefl p.1))
      (by
        intro b hb
        rw [← List.take_append_drop 10 ((keyedRows f c).mergeSort ascLe),
          List.pairwise_append] at hsortA
        have hcross := hsortA.2.2 p' hpTake' b hb
        simp only [ascLe, decide_eq_true_eq] at hcross
        rw [hq] at hcross
        exact decide_eq_false_iff_not.mpr (not_lt.mpr hcross))
    calc List.countP (fun x => decide (x.1 < p.1)) (keyedRows f c)
        = List.countP (fun x => decide (x.1 < p.1)) ((keyedRows f c).mergeSort ascLe) :=
          (hpermA.countP_eq _).symm
      _ ≤ 10 - 1 := hb
      _ = 9 := rfl
  have heq1 : List.countP (fun x => decide (x.1 = p.1)) (keyedRows f c) ≤ 1 :=
    countP_eq_key_le_one p.1 _ hnodup
  have htotal := length_eq_countP_three p.1 (keyedRows f c)
  omega

/-! ### Facts about the pairwise branch -/

theorem any_map_general {α β : Type} (g : α → β) (p : β → Bool) (l : List α) :
    (l.map g).any p = l.any (fun a => p (g a)) := by
  induction l with
  | nil => rfl
  | cons a t ih => simp [ih]

/-- `df[valid_cols].dropna()` keeps exactly the rows with no missing
value in any selected column, projected to the selected columns. -/
theorem dropna_selectCols (f : Frame) (cs : List String) :
    (selectCols f cs).dropna
      = Frame.mk cs
          ((f.rows.filter (fun r => cs.all (fun c => !(cellAt f r c).isNA))).map
            (fun r => cs.map (fun c => cellAt f r c))) := by
  unfold Frame.dropna selectCols
  simp only []
  congr 1
  rw [List.filter_map]
  have hpred : ∀ r ∈ f.rows,
      ((fun r0 : List Cell => !(r0.any Cell.isNA)) ∘ (fun r0 => cs.map (fun c => cellAt f r0 c))) r
        = cs.all (fun c => !(cellAt f r c).isNA) := by
    intro r hr
    simp only [Function.comp_apply]
    rw [any_map_general (fun c => cellAt f r c) Cell.isNA cs]
    rw [List.all_eq_not_any_not]
    simp [Bool.not_not]
  rw [List.filter_congr hpred]

/-! ### Per-page render equations -/

theorem render_topbottom (f : Frame) :
    render f "Top & Bottom 10 Countries"
      = if !(safe_col f "happiness_score") || !(safe_col f "country")
        then RenderResult.error "⚠️ Required columns not found in dataset."
        else RenderResult.chart (Chart.twinBars (f.nlargest 10 "happiness_score")
          (f.nsmallest 10 "happiness_score")) := by
  unfold render runView
  rw [if_pos rfl]
  cases hb : !(safe_col f "happiness_score") || !(safe_col f "country") <;> simp [hb]

theorem render_gdp (f : Frame) :
    render f "GDP vs Happiness"
      = if !(safe_col f "gdp_per_capita") || !(safe_col f "happiness_score")
        then RenderResult.error "⚠️ GDP or Happiness Score column missing."
        else RenderResult.chart (Chart.scatter "gdp_per_capita" "happiness_score"
          (if safe_col f "region" then some "region" else none) f) := by
  unfold render runView
  rw [if_neg (by decide), if_pos rfl]
  cases hb : !(safe_col f "gdp_per_capita") || !(safe_col f "happiness_score") <;> simp [hb]

theorem render_social (f : Frame) :
    render f "Social Support vs Happiness"
      = if !(safe_col f "social_support") || !(safe_col f "happiness_score")
        then RenderResult.error "⚠️ Social Support or Happiness Score column missing."
        else RenderResult.chart (Chart.scatter "social_support" "happiness_score"
          (if safe_col f "region" then some "region" else none) f) := by
  unfold render runView
  rw [if_neg (by decide), if_neg (by decide), if_pos rfl]
  cases hb : !(safe_col f "social_support") || !(safe_col f "happiness_score") <;> simp [hb]

theorem render_dist (f : Frame) :
    render f "Happiness Distribution"
      = if !(safe_col f "happiness_score")
        then RenderResult.error "⚠️ Happiness Score column missing."
        else RenderResult.chart (Chart.hist "happiness_score" f) := by
  unfold render runView
  rw [if_neg (by decide), if_neg (by decide), if_neg (by decide), if_pos rfl]
  cases hb : !(safe_col f "happiness_score") <;> simp [hb]

theorem render_heatmap (f : Frame) :
    render f "Correlation Heatmap"
      = RenderResult.chart (Chart.heatmapCorr (select_dtypes_number f)) := by
  unfold render runView
  rw [if_neg (by decide), if_neg (by decide), if_neg (by decide), if_neg (by decide),
    if_pos rfl]

theorem render_pairwise (f : Frame) :
    render f "Pairwise Relationships"
      = if (valid_cols f).length < 2
        then RenderResult.error "⚠️ Not enough numeric columns for pairwise visualization."
        else RenderResult.chart (Chart.pairplot ((selectCols f (valid_cols f)).dropna)) := by
  unfold render runView
  rw [if_neg (by decide), if_neg (by decide), if_neg (by decide), if_neg (by decide),
    if_neg (by decide), if_pos rfl]
  by_cases hl : (valid_cols f).length < 2 <;> simp [hl]

/-! ### The claims -/

/-- Claim C1: for every one of the six views, a column required by the
view that is absent from the table forces the error result, so no chart
is rendered; and a rendered chart means every column the view checks
for is present (the heatmap and pairwise branches check no fixed
column). -/
theorem claim_C1_required_column_check (f : Frame) (page : String) (hp : page ∈ pages) :
    ((∃ c ∈ requiredCols page, c ∉ f.cols) → (render f page).isError = true)
    ∧ ((render f page).isChart = true → ∀ c ∈ requiredCols page, c ∈ f.cols) := by
  fin_cases hp
  · constructor
    · rintro ⟨c, hcmem, hcabs⟩
      rw [render_topbottom]
      simp [requiredCols] at hcmem
      have hcond : (!(safe_col f "happiness_score") || !(safe_col f "country")) = true := by
        rcases hcmem with rfl | rfl <;> simp [safe_col, hcabs]
      rw [if_pos hcond]
      rfl
    · intro hch c hcmem
      rw [render_topbottom] at hch
      simp [requiredCols] at hcmem
      by_cases ha : "happiness_score" ∈ f.cols
      · by_cases hb : "country" ∈ f.cols
        · rcases hcmem with rfl | rfl
          exacts [ha, hb]
        · rw [if_pos (by simp [safe_col, hb])] at hch
          simp [RenderResult.isChart] at hch
      · rw [if_pos (by simp [safe_col, ha])] at hch
        simp [RenderResult.isChart] at hch
  · constructor
    · rintro ⟨c, hcmem, hcabs⟩
      rw [render_gdp]
      simp [requiredCols] at hcmem
      have hcond : (!(safe_col f "gdp_per_capita") || !(safe_col f "happiness_score")) = true := by
        rcases hcmem with rfl | rfl <;> simp [safe_col, hcabs]
      rw [if_pos hcond]
      rfl
    · intro hch c hcmem
      rw [render_gdp] at hch
      simp [requiredCols] at hcmem
      by_cases ha : "gdp_per_capita" ∈ f.cols
      · by_cases hb : "happiness_score" ∈ f.cols
        · rcases hcmem with rfl | rfl
          exacts [ha, hb]
        · rw [if_pos (by simp [safe_col, hb])] at hch
          simp [RenderResult.isChart] at hch
      · rw [if_pos (by simp [safe_col, ha])] at hch
        simp [RenderResult.isChart] at hch
  · constructor
    · rintro ⟨c, hcmem, hcabs⟩
      rw [render_social]
      simp [requiredCols] at hcmem
      have hcond : (!(safe_col f "social_support") || !(safe_col f "happiness_score")) = true := by
        rcases hcmem with rfl | rfl <;> simp [safe_col, hcabs]
      rw [if_pos hcond]
      rfl
    · intro hch c hcmem
      rw [render_social] at hch
      simp [requiredCols] at hcmem
      by_cases ha : "social_support" ∈ f.cols
      · by_cases hb : "happiness_score" ∈ f.cols
        · rcases hcmem with rfl | rfl
          exacts [ha, hb]
        · rw [if_pos (by simp [safe_col, hb])] at hch
          simp [RenderResult.isChart] at hch
      · rw [if_pos (by simp [safe_col, ha])] at hch
        simp [RenderResult.isChart] at hch
  · constructor
    · rintro ⟨c, hcmem, hcabs⟩
      rw [render_dist]
      simp [requiredCols] at hcmem
      have hc : c = "happiness_score" := hcmem
      subst hc
      rw [if_pos (by simp [safe_col, hcabs])]
      rfl
    · intro hch c hcmem
      rw [render_dist] at hch
      simp [requiredCols] at hcmem
      have hc : c = "happiness_score" := hcmem
      subst hc
      by_cases ha : "happiness_score" ∈ f.cols
      · exact ha
      · rw [if_pos (by simp [safe_col, ha])] at hch
        simp [RenderResult.isChart] at hch
  · constructor
    · rintro ⟨c, hcmem, hcabs⟩
      simp [requiredCols] at hcmem
    · intro hch c hcmem
      simp [requiredCols] at hcmem
  · constructor
    · rintro ⟨c, hcmem, hcabs⟩
      simp [requiredCols] at hcmem
    · intro hch c hcmem
      simp [requiredCols] at hcmem

theorem claim_C1_witness :
    (render emptyFrame "Happiness Distribution").isError = true := by
  have h := claim_C1_required_column_check emptyFrame "Happiness Distribution" (by decide)
  exact h.1 ⟨"happiness_score", by decide, by decide⟩

/-- Claim C2: with the `happiness_score` and `country` columns present
and a numeric happiness score in every row, the Top-10 and Bottom-10
selections each hold `min 10 n` rows (all rows when the table has fewer
than 10, exactly 10 otherwise), and when all scores are pairwise
distinct and the table has at least 20 rows the two selections are
disjoint. -/
theorem claim_C2_top_bottom_selection (f : Frame)
    (hs : "happiness_score" ∈ f.cols) (hc : "country" ∈ f.cols)
    (hnum : ∀ r ∈ f.rows, (scoreKey f "happiness_score" r).isSome = true) :
    (f.nlargest 10 "happiness_score").rows.length = min 10 f.rows.length
    ∧ (f.nsmallest 10 "happiness_score").rows.length = min 10 f.rows.length
    ∧ (((keyedRows f "happiness_score").map Prod.fst).Nodup → 20 ≤ f.rows.length →
        List.Disjoint (f.nlargest 10 "happiness_score").rows
          (f.nsmallest 10 "happiness_score").rows) := by
  refine ⟨nlargest_rows_length f 10 _ hnum, nsmallest_rows_length f 10 _ hnum, ?_⟩
  intro hnodup h20
  exact nlargest_nsmallest_disjoint f _ hnodup
    (by rw [keyedRows_length f _ hnum]; exact h20)

set_option maxHeartbeats 4000000 in
theorem claim_C2_witness :
    (sampleFrame.nlargest 10 "happiness_score").rows.length = min 10 sampleFrame.rows.length
    ∧ List.Disjoint (sampleFrame.nlargest 10 "happiness_score").rows
        (sampleFrame.nsmallest 10 "happiness_score").rows := by
  have h := claim_C2_top_bottom_selection sampleFrame (by decide) (by decide) (by decide)
  exact ⟨h.1, h.2.2 (by decide) (by decide)⟩

/-- Claim C3: the loader's column-name normalization is idempotent:
applying it twice to a list of headers equals applying it once. -/
theorem claim_C3_normalization_idempotent (cols : List String) :
    load_data_columns (load_data_columns cols) = load_data_columns cols := by
  rw [load_data_columns_eq_map, load_data_columns_eq_map]
  unfold normalizeSpec
  rw [List.map_map]
  apply List.map_congr_left
  intro c hc
  simp only [Function.comp_apply]
  exact canonicalRename_basicNormalize_idem c

/-- Claim C4: the loader strips, lowercases and underscores every
header and then renames headers that are keys of the static map to
their canonical value, leaving all other headers unchanged; in
particular `ladder_score` becomes `happiness_score`, `country_name`
becomes `country` and `regional_indicator` becomes `region`. -/
theorem claim_C4_loader_header_transform (cols : List String) :
    load_data_columns cols = normalizeSpec cols
    ∧ canonicalRename "ladder_score" = "happiness_score"
    ∧ canonicalRename "country_name" = "country"
    ∧ canonicalRename "regional_indicator" = "region"
    ∧ basicNormalize " Ladder score " = "ladder_score" :=
  ⟨load_data_columns_eq_map cols, by decide, by decide, by decide, by decide⟩

/-- Claim C5: apart from the column names, the loader returns the frame
unchanged: the rows (values, count and order) are untouched and the
number of columns is preserved. -/
theorem claim_C5_loader_preserves_rows (f : Frame) :
    (load_data f).rows = f.rows ∧ (load_data f).cols.length = f.cols.length := by
  unfold load_data
  constructor
  · with_reducible rfl
  · have h : (Frame.mk (load_data_columns f.cols) f.rows).cols = load_data_columns f.cols := by
      with_reducible rfl
    rw [h, load_data_columns_eq_map]
    unfold normalizeSpec
    exact List.length_map _ _

/-- Claim C6: a load failure propagates unhandled (the script installs
no handler), a parsed frame always renders, and every user-visible
error message the renderer can produce is one of the missing-column
messages. -/
theorem claim_C6_only_missing_columns_handled (e : LoadFailure) (raw f : Frame)
    (page : String) (m : String) (hm : render f page = RenderResult.error m) :
    runApp (Except.error e) page = Outcome.crashed e
    ∧ runApp (Except.ok raw) page = Outcome.rendered (render (load_data raw) page)
    ∧ m ∈ errorMessages := by
  refine ⟨rfl, rfl, ?_⟩
  unfold render runView at hm
  split_ifs at hm <;> simp_all [errorMessages]

theorem claim_C6_witness :
    runApp (Except.error LoadFailure.missingFile) "GDP vs Happiness"
      = Outcome.crashed LoadFailure.missingFile
    ∧ "⚠️ GDP or Happiness Score column missing." ∈ errorMessages := by
  have h := claim_C6_only_missing_columns_handled LoadFailure.missingFile
    emptyFrame emptyFrame "GDP vs Happiness"
    "⚠️ GDP or Happiness Score column missing." (by decide)
  exact ⟨h.1, h.2.2⟩

/-- Claim C7: rendering never mutates the loaded frame: the frame
coming out of any page dispatch is the frame that went in. -/
theorem claim_C7_table_not_mutated (f : Frame) (page : String) :
    (runView f page).2 = f := by
  unfold runView
  split_ifs <;> rfl

/-- Claim C8: the six options are pairwise distinct, any selection
value satisfies at most one of the six dispatch conditions, and each of
the six option strings satisfies exactly one. -/
theorem claim_C8_views_mutually_exclusive :
    pages.length = 6 ∧ pages.Nodup
    ∧ (∀ s : String, List.countP (fun t => t s) branchTests ≤ 1)
    ∧ (∀ p ∈ pages, List.countP (fun t => t p) branchTests = 1) := by
  refine ⟨rfl, by decide, ?_, by decide⟩
  intro s
  by_cases h1 : s = "Top & Bottom 10 Countries"
  · subst h1; decide
  by_cases h2 : s = "GDP vs Happiness"
  · subst h2; decide
  by_cases h3 : s = "Social Support vs Happiness"
  · subst h3; decide
  by_cases h4 : s = "Happiness Distribution"
  · subst h4; decide
  by_cases h5 : s = "Correlation Heatmap"
  · subst h5; decide
  by_cases h6 : s = "Pairwise Relationships"
  · subst h6; decide
  simp [branchTests, List.countP_cons, h1, h2, h3, h4, h5, h6]

theorem claim_C8_witness :
    List.countP (fun t => t "Correlation Heatmap") branchTests = 1 := by
  have h := claim_C8_views_mutually_exclusive
  exact h.2.2.2 "Correlation Heatmap" (by decide)

/-- Claim C9: the pairwise view errors exactly when fewer than two of
the five candidate columns exist; otherwise it charts the existing
candidate columns restricted to the rows with no missing value in any
of them. -/
theorem claim_C9_pairwise_view (f : Frame) :
    ((render f "Pairwise Relationships").isError = true ↔ (valid_cols f).length < 2)
    ∧ (2 ≤ (valid_cols f).length →
        render f "Pairwise Relationships" = RenderResult.chart (Chart.pairplot
          (Frame.mk (valid_cols f)
            ((f.rows.filter
                (fun r => (valid_cols f).all (fun c => !(cellAt f r c).isNA))).map
              (fun r => (valid_cols f).map (fun c => cellAt f r c)))))) := by
  constructor
  · rw [render_pairwise]
    by_cases hl : (valid_cols f).length < 2
    · rw [if_pos hl]
      exact iff_of_true rfl hl
    · rw [if_neg hl]
      exact iff_of_false (by simp [RenderResult.isError]) hl
  · intro h2
    rw [render_pairwise, if_neg (by omega), dropna_selectCols]

theorem claim_C9_witness :
    render wideFrame "Pairwise Relationships"
      = RenderResult.chart (Chart.pairplot wideFrame) := by
  have h := (claim_C9_pairwise_view wideFrame).2 (by decide)
  rw [h]
  decide

/-- Claim C10: in the GDP and Social Support views the `region` column
is optional: the error result depends only on the two required columns,
and when those are present the chart is colored by `region` exactly
when that column exists. -/
theorem claim_C10_region_optional (f : Frame) :
    ((render f "GDP vs Happiness").isError
        = (!(safe_col f "gdp_per_capita") || !(safe_col f "happiness_score")))
    ∧ ("gdp_per_capita" ∈ f.cols → "happiness_score" ∈ f.cols →
        render f "GDP vs Happiness" = RenderResult.chart (Chart.scatter "gdp_per_capita"
          "happiness_score" (if "region" ∈ f.cols then some "region" else none) f))
    ∧ ((render f "Social Support vs Happiness").isError
        = (!(safe_col f "social_support") || !(safe_col f "happiness_score")))
    ∧ ("social_support" ∈ f.cols → "happiness_score" ∈ f.cols →
        render f "Social Support vs Happiness"
          = RenderResult.chart (Chart.scatter "social_support"
            "happiness_score" (if "region" ∈ f.cols then some "region" else none) f)) := by
  refine ⟨?_, ?_, ?_, ?_⟩
  · rw [render_gdp]
    cases hb : !(safe_col f "gdp_per_capita") || !(safe_col f "happiness_score") <;>
      simp [hb, RenderResult.isError]
  · intro h1 h2
    rw [render_gdp, if_neg (by simp [safe_col, h1, h2])]
    by_cases hr : "region" ∈ f.cols <;> simp [safe_col, hr]
  · rw [render_social]
    cases hb : !(safe_col f "social_support") || !(safe_col f "happiness_score") <;>
      simp [hb, RenderResult.isError]
  · intro h1 h2
    rw [render_social, if_neg (by simp [safe_col, h1, h2])]
    by_cases hr : "region" ∈ f.cols <;> simp [safe_col, hr]

theorem claim_C10_witness :
    render wideFrame "GDP vs Happiness"
      = RenderResult.chart
          (Chart.scatter "gdp_per_capita" "happiness_score" none wideFrame) := by
  have h := (claim_C10_region_optional wideFrame).2.1 (by decide) (by decide)
  rw [h]
  decide

end WHR
